import Mathlib

/-!
# Verification of the IEEE conference-paper formatter frontend

Shallow embedding of `src/frontend/src/App.jsx` (the only source file of the
repository) together with proofs about the properties stated in the design
specification.  JavaScript numbers that hold (possibly negative) integers are
modelled as `Int`; JavaScript strings as `String`; the mutable React form
state as an explicit `FormData` value threaded through the operations; the
`fetch`/blob effects as explicit data returned by the embedded functions.
-/

namespace IEEEFormatter

/-! ## Roman numeral encoder (`toRoman`, App.jsx lines 319–344) -/

/-- The descending value/symbol table `romanNumerals` of `toRoman`
(App.jsx lines 320–334). -/
def romanNumerals : List (Int × String) :=
  [(1000, "M"), (900, "CM"), (500, "D"), (400, "CD"), (100, "C"),
   (90, "XC"), (50, "L"), (40, "XL"), (10, "X"), (9, "IX"),
   (5, "V"), (4, "IV"), (1, "I")]

/-- The inner `while (num >= value) { result += numeral; num -= value }` loop
of `toRoman` (App.jsx lines 338–341).  The `fuel` argument only bounds the
number of iterations: every value in `romanNumerals` is at least 1, so the
loop runs at most `num.toNat` times and `toRoman` always passes enough fuel
for the loop to stop by its own guard. -/
def romanWhile : Nat → Int → String → Int → String → String × Int
  | 0, _, _, num, result => (result, num)
  | fuel + 1, value, numeral, num, result =>
    if value ≤ num then romanWhile fuel value numeral (num - value) (result ++ numeral)
    else (result, num)

/-- Embedding of `toRoman` (App.jsx lines 319–344): fold the while-loop over the table,
threading `result` and `num`. -/
def toRoman (num : Int) : String :=
  (romanNumerals.foldl
    (fun (acc : String × Int) p => romanWhile (acc.2.toNat + 1) p.1 p.2 acc.2 acc.1)
    ("", num)).1

/-- Spec-side copy of the table with `Nat` values, used to state the greedy
reference algorithm. -/
def romanTableNat : List (Nat × String) :=
  [(1000, "M"), (900, "CM"), (500, "D"), (400, "CD"), (100, "C"),
   (90, "XC"), (50, "L"), (40, "XL"), (10, "X"), (9, "IX"),
   (5, "V"), (4, "IV"), (1, "I")]

/-- One greedy step of the spec's algorithm: the largest table value not
exceeding `n` (the table is descending, so `find?` returns it). -/
def greedyStep (n : Nat) : Option (Nat × String) :=
  romanTableNat.find? (fun p => p.1 ≤ n)

/-- Spec-side greedy subtraction: repeatedly subtract the largest table value
not exceeding `n`, appending its symbol, until `n` reaches `0`.  Each step
subtracts at least 1, so `fuel = n` suffices for the recursion to run to
completion. -/
def greedyRomanAux : Nat → Nat → String
  | 0, _ => ""
  | fuel + 1, n =>
    match greedyStep n with
    | none => ""
    | some (v, s) => s ++ greedyRomanAux fuel (n - v)

/-- The canonical Roman numeral of `n`, written exactly as the specification
describes the greedy-subtraction algorithm. -/
def greedyRoman (n : Nat) : String := greedyRomanAux n n

/-! Proof-layer generalizations of the two algorithms over an arbitrary
value/symbol table, used to relate `toRoman` to `greedyRoman` by induction. -/

/-- The fold at the heart of `toRoman`, over an arbitrary table suffix. -/
def stepFold (L : List (Int × String)) (acc : String × Int) : String × Int :=
  L.foldl (fun (acc : String × Int) p => romanWhile (acc.2.toNat + 1) p.1 p.2 acc.2 acc.1) acc

/-- The table of `toRoman` viewed as the `Nat`-valued table. -/
def intTable (L : List (Nat × String)) : List (Int × String) :=
  L.map (fun p => ((p.1 : Int), p.2))

/-- Greedy subtraction string over an arbitrary table `L`: the symbol of the
first entry of `L` whose value does not exceed `n`, repeated. -/
def greedyOn (L : List (Nat × String)) : Nat → Nat → String
  | 0, _ => ""
  | fuel + 1, n =>
    match L.find? (fun p => p.1 ≤ n) with
    | none => ""
    | some (v, s) => s ++ greedyOn L fuel (n - v)

/-- Remainder left over by greedy subtraction over table `L`. -/
def greedyRem (L : List (Nat × String)) : Nat → Nat → Nat
  | 0, n => n
  | fuel + 1, n =>
    match L.find? (fun p => p.1 ≤ n) with
    | none => n
    | some (v, _) => greedyRem L fuel (n - v)

/-! ## Document data model (the React `formData` state, App.jsx lines 5–18) -/

/-- One entry of the author roster (the object literal of App.jsx
lines 10 and 42). -/
structure Author where
  firstName : String
  lastName : String
  membership : String
  department : String
  organization : String
  cityCountry : String
  email : String
deriving DecidableEq

/-- A body section.  The first default section (App.jsx line 14) has no
`subsections` key while the second (line 15) carries `subsections: []`, so
the key is modelled as optional; the type is recursive as §3 requires. -/
inductive Sec : Type where
  | mk (title content : String) (subsections : Option (List Sec)) : Sec

def Sec.title : Sec → String
  | .mk t _ _ => t

def Sec.content : Sec → String
  | .mk _ c _ => c

def Sec.subsections : Sec → Option (List Sec)
  | .mk _ _ s => s

/-- Replace the body text of a section, leaving title and subsections
untouched (the assignment `updatedSections[index].content = …`,
App.jsx line 278). -/
def Sec.withContent : Sec → String → Sec
  | .mk t _ s, c => .mk t c s

/-- The whole form state (App.jsx lines 5–18).  Field order and names follow
the object literal, in particular the presentation flag is called
`dropCap` in the source. -/
structure FormData where
  title : String
  paperNotice : String
  funding : String
  dropCap : Bool
  authors : List Author
  abstract : String
  keywords : String
  sections : List Sec
  references : String

/-- The author with every field the empty string (App.jsx lines 10 and 42). -/
def emptyAuthor : Author :=
  { firstName := "", lastName := "", membership := "", department := "",
    organization := "", cityCountry := "", email := "" }

/-- The default document created at session start (App.jsx lines 5–18). -/
def initialFormData : FormData :=
  { title := "", paperNotice := "", funding := "", dropCap := true,
    authors := [emptyAuthor],
    abstract := "", keywords := "",
    sections := [Sec.mk "Introduction" "" none, Sec.mk "Section II" "" (some [])],
    references := "" }

/-! ## Mutation operations (App.jsx lines 22–55 and 274–283) -/

/-- The seven author fields addressed by `handleAuthorChange`. -/
inductive AuthorField : Type where
  | firstName | lastName | membership | department | organization | cityCountry | email
deriving DecidableEq

def Author.setField (a : Author) : AuthorField → String → Author
  | .firstName, v => { a with firstName := v }
  | .lastName, v => { a with lastName := v }
  | .membership, v => { a with membership := v }
  | .department, v => { a with department := v }
  | .organization, v => { a with organization := v }
  | .cityCountry, v => { a with cityCountry := v }
  | .email, v => { a with email := v }

def Author.getField (a : Author) : AuthorField → String
  | .firstName => a.firstName
  | .lastName => a.lastName
  | .membership => a.membership
  | .department => a.department
  | .organization => a.organization
  | .cityCountry => a.cityCountry
  | .email => a.email

/-- Failure of an indexed mutation.  For an invalid `index` the source throws:
`updatedAuthors[index]` is `undefined`, so the assignment
`updatedAuthors[index][field] = value` raises a `TypeError` before
`setFormData` runs.  The specification calls this failure `IndexOutOfRange`. -/
inductive MutError : Type where
  | indexOutOfRange
deriving DecidableEq

/-- Embedding of `handleAuthorChange` (App.jsx lines 29–36): copy the author array,
replace one field of the author at `index`, store the new array.  An invalid
`index` (negative or past the end) throws before any state update. -/
def handleAuthorChange (d : FormData) (index : Int) (f : AuthorField) (v : String) :
    Except MutError FormData :=
  if h : 0 ≤ index ∧ index.toNat < d.authors.length then
    Except.ok { d with
      authors := d.authors.set index.toNat
        ((d.authors.get ⟨index.toNat, h.2⟩).setField f v) }
  else Except.error MutError.indexOutOfRange

/-- The React state after running `handleAuthorChange`: on a throw the
`setFormData` call is never reached, so the state is unchanged. -/
def applyAuthorChange (d : FormData) (index : Int) (f : AuthorField) (v : String) : FormData :=
  match handleAuthorChange d index f v with
  | Except.ok d2 => d2
  | Except.error _ => d

/-- The inline section-content handler (App.jsx lines 276–279): copy the
section array, replace the `content` of the section at `index`, store the
new array.  As with authors, an invalid `index` throws (`undefined.content`). -/
def setSectionContent (d : FormData) (index : Int) (content : String) :
    Except MutError FormData :=
  if h : 0 ≤ index ∧ index.toNat < d.sections.length then
    Except.ok { d with
      sections := d.sections.set index.toNat
        ((d.sections.get ⟨index.toNat, h.2⟩).withContent content) }
  else Except.error MutError.indexOutOfRange

/-- The React state after the section-content handler. -/
def applySectionContent (d : FormData) (index : Int) (content : String) : FormData :=
  match setSectionContent d index content with
  | Except.ok d2 => d2
  | Except.error _ => d

/-- Embedding of `addAuthor` (App.jsx lines 38–45): append an all-empty author unless the
roster already holds 6 entries. -/
def addAuthor (d : FormData) : FormData :=
  if d.authors.length < 6 then { d with authors := d.authors ++ [emptyAuthor] } else d

/-- The JavaScript `Array.prototype.filter` call of `removeAuthor` with the
predicate `(_, i) => i !== index`: keep the elements whose position differs
from `index`; `c` is the position counter. -/
def filterIndexNe {α : Type} (index : Int) : List α → Nat → List α
  | [], _ => []
  | a :: rest, c =>
    if (c : Int) ≠ index then a :: filterIndexNe index rest (c + 1)
    else filterIndexNe index rest (c + 1)

/-- Embedding of `removeAuthor` (App.jsx lines 47–55): drop the author at `index` unless
only one author remains. -/
def removeAuthor (d : FormData) (index : Int) : FormData :=
  if 1 < d.authors.length then
    { d with authors := filterIndexNe index d.authors 0 }
  else d

/-- A roster mutation, for reasoning about arbitrary call sequences. -/
inductive RosterOp : Type where
  | add
  | remove (index : Int)

def applyRosterOp (d : FormData) : RosterOp → FormData
  | .add => addAuthor d
  | .remove i => removeAuthor d i

/-- Run a sequence of `addAuthor`/`removeAuthor` calls from a starting state. -/
def runRosterOps (d : FormData) (ops : List RosterOp) : FormData :=
  ops.foldl applyRosterOp d

/-! ## Section display labels (App.jsx line 273) -/

/-- The label shown for the section at position `i`:
`index === 0 ? 'Introduction' : `Section ${toRoman(index + 1)}`». -/
def sectionLabel (i : Nat) : String :=
  if i = 0 then "Introduction" else "Section " ++ toRoman ((i : Int) + 1)

/-! ## Request serialization (`handleSubmit`, App.jsx lines 57–80) -/

/-- JSON values, as produced by `JSON.stringify` on the form state. -/
inductive Json : Type where
  | str (s : String)
  | bool (b : Bool)
  | arr (elems : List Json)
  | obj (fields : List (String × Json))

/-- Key order of an object value (`JSON.stringify` emits keys in insertion
order); non-objects have no keys. -/
def Json.topKeys : Json → List String
  | .obj fields => fields.map Prod.fst
  | _ => []

/-- Serialization of one author object (keys in the insertion order of the
literal on App.jsx line 10). -/
def Author.toJson (a : Author) : Json :=
  Json.obj [("firstName", Json.str a.firstName), ("lastName", Json.str a.lastName),
    ("membership", Json.str a.membership), ("department", Json.str a.department),
    ("organization", Json.str a.organization), ("cityCountry", Json.str a.cityCountry),
    ("email", Json.str a.email)]

mutual

/-- Serialization of one section object: the `subsections` key is present
exactly when the object carries it (App.jsx lines 14–15). -/
def Sec.toJson : Sec → Json
  | Sec.mk t c none => Json.obj [("title", Json.str t), ("content", Json.str c)]
  | Sec.mk t c (some subs) =>
    Json.obj [("title", Json.str t), ("content", Json.str c),
      ("subsections", Json.arr (secListToJson subs))]

def secListToJson : List Sec → List Json
  | [] => []
  | s :: rest => Sec.toJson s :: secListToJson rest

end

/-- Embedding of `JSON.stringify(formData)` (App.jsx line 67): the form state as a flat
JSON object, keys in the insertion order of the state literal. -/
def FormData.toJson (d : FormData) : Json :=
  Json.obj [("title", Json.str d.title), ("paperNotice", Json.str d.paperNotice),
    ("funding", Json.str d.funding), ("dropCap", Json.bool d.dropCap),
    ("authors", Json.arr (d.authors.map Author.toJson)),
    ("abstract", Json.str d.abstract), ("keywords", Json.str d.keywords),
    ("sections", Json.arr (secListToJson d.sections)),
    ("references", Json.str d.references)]

/-- The HTTP request issued by `handleSubmit` (App.jsx lines 62–68). -/
structure HttpRequest where
  url : String
  method : String
  contentType : String
  body : Json

def generateRequest (d : FormData) : HttpRequest :=
  { url := "/api/generate-pdf", method := "POST",
    contentType := "application/json", body := d.toJson }

/-! ## Submit / download protocol (App.jsx lines 57–89) -/

/-- An opaque binary payload (the response blob / its object URL). -/
abbrev Blob := String

/-- What the `fetch` exchange produced: a response (with its `ok` flag, true
exactly for 2xx statuses) or a rejected promise (no response received). -/
inductive FetchOutcome : Type where
  | response (ok : Bool) (body : Blob)
  | networkError

/-- Observable outcome of one `handleSubmit` run: the `pdfUrl` state after
the handler, the object URL created during the call (if any), and the
console message logged (if any). -/
structure SubmitResult where
  pdfUrl : Option Blob
  produced : Option Blob
  consoleLog : Option String
deriving DecidableEq

/-- Embedding of `handleSubmit` (App.jsx lines 57–80) as a function of the previous
`pdfUrl` state and the fetch outcome.  `window.URL.createObjectURL` is
modelled as the identity on the opaque payload.  On `response.ok` the new
URL is stored; on a non-ok response the handler only logs
`'Error generating PDF'`; on a rejected fetch the `catch` block only logs
`'Error:'`.  In the two failure branches `setPdfUrl` is never called. -/
def handleSubmit (prev : Option Blob) : FetchOutcome → SubmitResult
  | .response true body =>
    { pdfUrl := some body, produced := some body, consoleLog := none }
  | .response false _ =>
    { pdfUrl := prev, produced := none, consoleLog := some "Error generating PDF" }
  | .networkError =>
    { pdfUrl := prev, produced := none, consoleLog := some "Error:" }

/-- The §7 error taxonomy for generation. -/
inductive GenerationError : Type where
  | serviceRejected
  | transportFailure
deriving DecidableEq

/-- Modelled from the spec: the `GenerationError` classification (§4.3/§7)
does not exist in the source, which only logs in its two failure branches;
this maps each fetch outcome to the error the specification assigns to that
branch (non-2xx response ↦ `ServiceRejected`, no response ↦
`TransportFailure`). -/
def submitError : FetchOutcome → Option GenerationError
  | .response true _ => none
  | .response false _ => some GenerationError.serviceRejected
  | .networkError => some GenerationError.transportFailure

/-- A completed browser download: the delivered payload and file name. -/
structure DownloadEvent where
  url : Blob
  filename : String
deriving DecidableEq

/-- Embedding of `downloadPdf` (App.jsx lines 82–89): if a `pdfUrl` is stored, deliver it
as `ieee_conference_paper.pdf`; otherwise do nothing. -/
def downloadPdf (pdfUrl : Option Blob) : Option DownloadEvent :=
  match pdfUrl with
  | some url => some { url := url, filename := "ieee_conference_paper.pdf" }
  | none => none

/-- The §7 error for a download attempted with nothing generated. -/
inductive DownloadError : Type where
  | noArtifact
deriving DecidableEq

/-- Modelled from the spec: the `NoArtifact` failure (§4.3/§7) does not
exist in the source, whose `downloadPdf` silently does nothing when no
handle is stored; this names that silent branch. -/
def downloadResult (pdfUrl : Option Blob) : Except DownloadError DownloadEvent :=
  match downloadPdf pdfUrl with
  | some ev => Except.ok ev
  | none => Except.error DownloadError.noArtifact

/-- One user-visible protocol action in a session. -/
inductive SessionOp : Type where
  | submit (o : FetchOutcome)
  | download

/-- Session step: the state is the stored `pdfUrl` plus the log of completed
downloads. -/
def stepSession : Option Blob × List DownloadEvent → SessionOp → Option Blob × List DownloadEvent
  | (url, evs), .submit o => ((handleSubmit url o).pdfUrl, evs)
  | (url, evs), .download =>
    match downloadPdf url with
    | some ev => (url, evs ++ [ev])
    | none => (url, evs)

/-- Run a session from the initial state (`pdfUrl = null`, App.jsx line 20). -/
def runSession (ops : List SessionOp) : Option Blob × List DownloadEvent :=
  ops.foldl stepSession (none, [])

/-- Number of submits in `ops` whose service response was successful. -/
def successfulSubmits (ops : List SessionOp) : Nat :=
  ops.countP fun op =>
    match op with
    | .submit (.response true _) => true
    | _ => false

/-! ## Validation (spec §4.1; absent from the source, see §9) -/

/-- One structural invariant violation from §3. -/
inductive Violation : Type where
  | authorCountOutOfRange (count : Nat)
  | emptyField (field : String)
  | emptyAuthorField (index : Nat) (field : String)
  | noSections
deriving DecidableEq

/-- Modelled from the spec: a required string field is violated when it is
"empty after trimming whitespace" (§3), i.e. when every character is
whitespace. -/
def blank (s : String) : Bool := s.data.all Char.isWhitespace

/-- Modelled from the spec: the required-field violations of one author
(§3: `firstName`, `lastName`, `department`, `organization`, `cityCountry`,
`email` must be non-empty after trimming; `membership` is optional). -/
def authorViolations (idx : Nat) (a : Author) : List Violation :=
  (if blank a.firstName then [Violation.emptyAuthorField idx "firstName"] else []) ++
  (if blank a.lastName then [Violation.emptyAuthorField idx "lastName"] else []) ++
  (if blank a.department then [Violation.emptyAuthorField idx "department"] else []) ++
  (if blank a.organization then [Violation.emptyAuthorField idx "organization"] else []) ++
  (if blank a.cityCountry then [Violation.emptyAuthorField idx "cityCountry"] else []) ++
  (if blank a.email then [Violation.emptyAuthorField idx "email"] else [])

/-- Modelled from the spec: `validateForSubmission()` (§4.1) is absent from
the source, where required fields exist only as HTML `required` hints; this
returns the ordered list of §3 invariant violations (author count in
`[1, 6]`, required `PaperDocument` and `Author` fields non-empty after
trimming, non-empty section list). -/
def validateForSubmission (d : FormData) : List Violation :=
  (if d.authors.length < 1 ∨ 6 < d.authors.length then
    [Violation.authorCountOutOfRange d.authors.length] else []) ++
  (if blank d.title then [Violation.emptyField "title"] else []) ++
  (if blank d.abstract then [Violation.emptyField "abstract"] else []) ++
  (if blank d.keywords then [Violation.emptyField "keywords"] else []) ++
  ((d.authors.enum.map fun p => authorViolations p.1 p.2).flatten) ++
  (if d.sections.isEmpty then [Violation.noSections] else [])

/-- The §7 error for a submission attempted on an invalid document. -/
inductive SubmissionError : Type where
  | invalidDocument (violations : List Violation)
deriving DecidableEq

/-- Modelled from the spec: the submission gate of §4.1 — a generation
request is issued only when `validateForSubmission` returns the empty list,
otherwise the attempt fails with `InvalidDocument` carrying the violations. -/
def attemptSubmission (d : FormData) : Except SubmissionError HttpRequest :=
  if validateForSubmission d = [] then Except.ok (generateRequest d)
  else Except.error (SubmissionError.invalidDocument (validateForSubmission d))

/-!
# Theorems

## The Roman-numeral encoder equals the spec's greedy algorithm
-/

theorem find?_le_zero_eq_none {L : List (Nat × String)} (hpos : ∀ p ∈ L, 1 ≤ p.1) :
    L.find? (fun p => p.1 ≤ 0) = none := by
  rw [List.find?_eq_none]
  intro p hp
  have := hpos p hp
  simp only [decide_eq_true_eq]
  omega

theorem greedyOn_succ_none {L : List (Nat × String)} {f n : Nat}
    (h : L.find? (fun p => p.1 ≤ n) = none) : greedyOn L (f + 1) n = "" := by
  simp only [greedyOn]
  rw [h]

theorem greedyOn_succ_some {L : List (Nat × String)} {f n v : Nat} {s : String}
    (h : L.find? (fun p => p.1 ≤ n) = some (v, s)) :
    greedyOn L (f + 1) n = s ++ greedyOn L f (n - v) := by
  simp only [greedyOn]
  rw [h]

theorem greedyRem_succ_none {L : List (Nat × String)} {f n : Nat}
    (h : L.find? (fun p => p.1 ≤ n) = none) : greedyRem L (f + 1) n = n := by
  simp only [greedyRem]
  rw [h]

theorem greedyRem_succ_some {L : List (Nat × String)} {f n v : Nat} {s : String}
    (h : L.find? (fun p => p.1 ≤ n) = some (v, s)) :
    greedyRem L (f + 1) n = greedyRem L f (n - v) := by
  simp only [greedyRem]
  rw [h]

theorem greedy_congr_fuel {L : List (Nat × String)} (hpos : ∀ p ∈ L, 1 ≤ p.1) :
    ∀ f1 f2 n : Nat, n ≤ f1 → n ≤ f2 →
      greedyOn L f1 n = greedyOn L f2 n ∧ greedyRem L f1 n = greedyRem L f2 n := by
  intro f1
  induction f1 with
  | zero =>
    intro f2 n h1 _
    obtain rfl : n = 0 := by omega
    cases f2 with
    | zero => exact ⟨rfl, rfl⟩
    | succ k =>
      rw [greedyOn_succ_none (find?_le_zero_eq_none hpos),
        greedyRem_succ_none (find?_le_zero_eq_none hpos)]
      exact ⟨rfl, rfl⟩
  | succ f ih =>
    intro f2 n h1 h2
    rcases Nat.eq_zero_or_pos n with rfl | hn
    · rw [greedyOn_succ_none (find?_le_zero_eq_none hpos),
        greedyRem_succ_none (find?_le_zero_eq_none hpos)]
      cases f2 with
      | zero => exact ⟨rfl, rfl⟩
      | succ k =>
        rw [greedyOn_succ_none (find?_le_zero_eq_none hpos),
          greedyRem_succ_none (find?_le_zero_eq_none hpos)]
        exact ⟨rfl, rfl⟩
    · obtain ⟨k, rfl⟩ : ∃ k, f2 = k + 1 := ⟨f2 - 1, by omega⟩
      rcases hfind : L.find? (fun p => p.1 ≤ n) with _ | ⟨v, s⟩
      · rw [greedyOn_succ_none hfind, greedyOn_succ_none hfind,
          greedyRem_succ_none hfind, greedyRem_succ_none hfind]
        exact ⟨rfl, rfl⟩
      · have hv1 : 1 ≤ v := hpos _ (List.mem_of_find?_eq_some hfind)
        have hvn : v ≤ n := by simpa using List.find?_some hfind
        have h := ih k (n - v) (by omega) (by omega)
        rw [greedyOn_succ_some hfind, greedyOn_succ_some hfind,
          greedyRem_succ_some hfind, greedyRem_succ_some hfind, h.1, h.2]
        exact ⟨rfl, rfl⟩

theorem greedy_skip {v : Nat} {s : String} {L : List (Nat × String)} :
    ∀ fuel n : Nat, n < v →
      greedyOn ((v, s) :: L) fuel n = greedyOn L fuel n ∧
      greedyRem ((v, s) :: L) fuel n = greedyRem L fuel n := by
  intro fuel
  induction fuel with
  | zero => intro n _; exact ⟨rfl, rfl⟩
  | succ f ih =>
    intro n hnv
    have hhead : List.find? (fun p => p.1 ≤ n) ((v, s) :: L) =
        List.find? (fun p => p.1 ≤ n) L := by
      rw [List.find?_cons_of_neg]
      simp only [decide_eq_true_eq]
      omega
    rcases hfind : L.find? (fun p => p.1 ≤ n) with _ | ⟨w, t⟩
    · rw [greedyOn_succ_none (hhead.trans hfind), greedyOn_succ_none hfind,
        greedyRem_succ_none (hhead.trans hfind), greedyRem_succ_none hfind]
      exact ⟨rfl, rfl⟩
    · have hwn : w ≤ n := by simpa using List.find?_some hfind
      have h := ih (n - w) (by omega)
      rw [greedyOn_succ_some (hhead.trans hfind), greedyOn_succ_some hfind,
        greedyRem_succ_some (hhead.trans hfind), greedyRem_succ_some hfind, h.1, h.2]
      exact ⟨rfl, rfl⟩

theorem romanWhile_congr_fuel {v : Nat} (hv : 1 ≤ v) (s : String) :
    ∀ (f1 f2 n : Nat) (r : String), n ≤ f1 → n ≤ f2 →
      romanWhile f1 (v : Int) s (n : Int) r = romanWhile f2 (v : Int) s (n : Int) r := by
  intro f1
  induction f1 with
  | zero =>
    intro f2 n r h1 _
    obtain rfl : n = 0 := by omega
    have hc : ¬ ((v : Int) ≤ ((0 : Nat) : Int)) := by
      push_cast
      omega
    cases f2 with
    | zero => rfl
    | succ k =>
      conv_rhs => rw [romanWhile]
      rw [if_neg hc]
      rfl
  | succ f ih =>
    intro f2 n r h1 h2
    by_cases hvn : v ≤ n
    · obtain ⟨k, rfl⟩ : ∃ k, f2 = k + 1 := ⟨f2 - 1, by omega⟩
      rw [romanWhile, romanWhile, if_pos (by exact_mod_cast hvn), if_pos (by exact_mod_cast hvn)]
      rw [show (n : Int) - (v : Int) = ((n - v : Nat) : Int) by omega]
      exact ih k (n - v) (r ++ s) (by omega) (by omega)
    · have hc : ¬ ((v : Int) ≤ (n : Int)) := by exact_mod_cast hvn
      cases f2 with
      | zero =>
        conv_lhs => rw [romanWhile]
        rw [if_neg hc]
        rfl
      | succ k =>
        rw [romanWhile, romanWhile, if_neg hc, if_neg hc]

theorem stepFold_cons (v : Int) (s : String) (L : List (Int × String)) (acc : String × Int) :
    stepFold ((v, s) :: L) acc =
      stepFold L (romanWhile (acc.2.toNat + 1) v s acc.2 acc.1) := rfl

theorem stepFold_greedy (L : List (Nat × String)) :
    (∀ p ∈ L, 1 ≤ p.1) →
      ∀ (n : Nat) (r : String),
        stepFold (intTable L) (r, (n : Int)) =
          (r ++ greedyOn L n n, (greedyRem L n n : Int)) := by
  induction L with
  | nil =>
    intro _ n r
    cases n with
    | zero => simp [stepFold, intTable, greedyOn, greedyRem, String.append_empty]
    | succ m =>
      rw [greedyOn_succ_none (by rfl), greedyRem_succ_none (by rfl)]
      simp [stepFold, intTable, String.append_empty]
  | cons hd tl ih =>
    intro hpos
    obtain ⟨v, s⟩ := hd
    have hv : 1 ≤ v := hpos _ (List.mem_cons_self _ _)
    have hpos2 : ∀ p ∈ tl, 1 ≤ p.1 := fun p hp => hpos p (List.mem_cons_of_mem _ hp)
    intro n
    induction n using Nat.strong_induction_on with
    | _ n IH =>
      intro r
      have hcons : intTable ((v, s) :: tl) = ((v : Int), s) :: intTable tl := rfl
      rw [hcons, stepFold_cons]
      simp only [Int.toNat_ofNat]
      by_cases hvn : v ≤ n
      · have hlt : n - v < n := by omega
        rw [romanWhile, if_pos (by exact_mod_cast hvn)]
        rw [show (n : Int) - (v : Int) = ((n - v : Nat) : Int) by omega]
        rw [romanWhile_congr_fuel hv s n ((n - v) + 1) (n - v) (r ++ s) (by omega) (by omega)]
        have hfold : stepFold (intTable ((v, s) :: tl)) (r ++ s, ((n - v : Nat) : Int)) =
            stepFold (intTable tl)
              (romanWhile ((n - v) + 1) (v : Int) s ((n - v : Nat) : Int) (r ++ s)) := by
          rw [hcons, stepFold_cons]
          simp only [Int.toNat_ofNat]
        rw [← hfold, IH (n - v) hlt (r ++ s)]
        obtain ⟨m, rfl⟩ : ∃ m, n = m + 1 := ⟨n - 1, by omega⟩
        have hfind : List.find? (fun p => p.1 ≤ m + 1) ((v, s) :: tl) = some (v, s) :=
          List.find?_cons_of_pos _ (by simpa using hvn)
        have hOn : greedyOn ((v, s) :: tl) (m + 1) (m + 1) =
            s ++ greedyOn ((v, s) :: tl) (m + 1 - v) (m + 1 - v) := by
          rw [greedyOn_succ_some hfind,
            (greedy_congr_fuel hpos m (m + 1 - v) (m + 1 - v) (by omega) (by omega)).1]
        have hRem : greedyRem ((v, s) :: tl) (m + 1) (m + 1) =
            greedyRem ((v, s) :: tl) (m + 1 - v) (m + 1 - v) := by
          rw [greedyRem_succ_some hfind,
            (greedy_congr_fuel hpos m (m + 1 - v) (m + 1 - v) (by omega) (by omega)).2]
        rw [hOn, hRem, String.append_assoc]
      · rw [romanWhile, if_neg (by exact_mod_cast hvn)]
        rw [ih hpos2 n r]
        have hskip := greedy_skip (v := v) (s := s) (L := tl) n n (by omega)
        rw [hskip.1, hskip.2]

theorem toRoman_eq_stepFold (num : Int) :
    toRoman num = (stepFold romanNumerals ("", num)).1 := rfl

theorem romanNumerals_eq_intTable : romanNumerals = intTable romanTableNat := by decide

theorem romanTableNat_pos : ∀ p ∈ romanTableNat, 1 ≤ p.1 := by decide

theorem greedyRomanAux_succ_none {f n : Nat} (h : greedyStep n = none) :
    greedyRomanAux (f + 1) n = "" := by
  simp only [greedyRomanAux]
  rw [h]

theorem greedyRomanAux_succ_some {f n v : Nat} {s : String} (h : greedyStep n = some (v, s)) :
    greedyRomanAux (f + 1) n = s ++ greedyRomanAux f (n - v) := by
  simp only [greedyRomanAux]
  rw [h]

theorem greedyOn_table_eq_aux : ∀ fuel n, greedyOn romanTableNat fuel n = greedyRomanAux fuel n := by
  intro fuel
  induction fuel with
  | zero => intro n; rfl
  | succ f ih =>
    intro n
    rcases hfind : List.find? (fun p => p.1 ≤ n) romanTableNat with _ | ⟨v, s⟩
    · rw [greedyOn_succ_none hfind, greedyRomanAux_succ_none hfind]
    · rw [greedyOn_succ_some hfind, greedyRomanAux_succ_some hfind, ih]

/-- For every nonnegative input, the source's `toRoman` computes exactly the
spec's greedy-subtraction numeral. -/
theorem toRoman_natCast (n : Nat) : toRoman (n : Int) = greedyRoman n := by
  rw [toRoman_eq_stepFold, romanNumerals_eq_intTable,
    stepFold_greedy romanTableNat romanTableNat_pos n ""]
  simp only [greedyRoman, greedyOn_table_eq_aux]
  exact String.empty_append _

theorem stepFold_nonpos (L : List (Int × String)) :
    (∀ p ∈ L, 1 ≤ p.1) →
      ∀ (num : Int) (r : String), num ≤ 0 → stepFold L (r, num) = (r, num) := by
  induction L with
  | nil => intro _ num r _; rfl
  | cons hd tl ih =>
    intro hpos num r hnum
    obtain ⟨v, s⟩ := hd
    have hv : (1 : Int) ≤ v := hpos _ (List.mem_cons_self _ _)
    rw [stepFold_cons, romanWhile, if_neg (by omega)]
    exact ih (fun p hp => hpos p (List.mem_cons_of_mem _ hp)) num r hnum

theorem romanNumerals_pos : ∀ p ∈ romanNumerals, (1 : Int) ≤ p.1 := by decide

/-- C1: for every integer `n` in `[1, 3999]`, `toRoman` returns the canonical
Roman numeral produced by greedy subtraction over the descending table
`{1000:M, …, 1:I}`; in particular the listed spot values hold. -/
theorem toRoman_greedy_canonical :
    (∀ n : Int, 1 ≤ n → n ≤ 3999 → toRoman n = greedyRoman n.toNat) ∧
    toRoman 1 = "I" ∧ toRoman 4 = "IV" ∧ toRoman 9 = "IX" ∧ toRoman 14 = "XIV" ∧
    toRoman 19 = "XIX" ∧ toRoman 20 = "XX" ∧ toRoman 40 = "XL" ∧ toRoman 90 = "XC" ∧
    toRoman 400 = "CD" ∧ toRoman 900 = "CM" ∧ toRoman 3999 = "MMMCMXCIX" := by
  refine ⟨?_, by decide, by decide, by decide, by decide, by decide, by decide, by decide,
    by decide, by decide, by decide, by decide⟩
  intro n h1 _
  obtain ⟨m, rfl⟩ : ∃ m : Nat, n = (m : Int) := ⟨n.toNat, by omega⟩
  simpa using toRoman_natCast m

/-- Witness for C1 at `n = 14`. -/
theorem toRoman_greedy_canonical_witness : toRoman 14 = greedyRoman (14 : Int).toNat :=
  toRoman_greedy_canonical.1 14 (by decide) (by decide)

/-- C10: for every integer `n ≤ 0`, `toRoman n` terminates and returns the
empty string (no table entry is ever subtracted). -/
theorem toRoman_nonpos_empty : ∀ n : Int, n ≤ 0 → toRoman n = "" := by
  intro n h
  rw [toRoman_eq_stepFold, stepFold_nonpos romanNumerals romanNumerals_pos n "" h]

/-- Witness for C10 at `n = -5`. -/
theorem toRoman_nonpos_empty_witness : toRoman (-5) = "" :=
  toRoman_nonpos_empty (-5) (by decide)

/-- C4: the section at index 0 is labeled literally `Introduction`, and the
section at index `i ≥ 1` is labeled `Section` followed by `toRoman (i + 1)`
(so index 1 is labeled `Section II`). -/
theorem sectionLabel_spec :
    sectionLabel 0 = "Introduction" ∧
    (∀ i : Nat, 1 ≤ i → sectionLabel i = "Section " ++ toRoman ((i : Int) + 1)) ∧
    sectionLabel 1 = "Section II" := by
  refine ⟨rfl, ?_, by decide⟩
  intro i hi
  rw [sectionLabel, if_neg (by omega)]

/-- Witness for C4 at `i = 2`. -/
theorem sectionLabel_spec_witness : sectionLabel 2 = "Section " ++ toRoman ((2 : Nat) + 1 : Int) :=
  sectionLabel_spec.2.1 2 (by decide)

/-! ## Author roster bounds (C2, C3) -/

theorem filterIndexNe_keep {α : Type} (index : Int) :
    ∀ (xs : List α) (c : Nat), index < (c : Int) → filterIndexNe index xs c = xs := by
  intro xs
  induction xs with
  | nil => intro c _; rfl
  | cons x rest ih =>
    intro c hc
    rw [filterIndexNe, if_pos (by omega), ih (c + 1) (by push_cast; omega)]

theorem filterIndexNe_eraseIdx {α : Type} :
    ∀ (xs : List α) (i c : Nat), i < xs.length →
      filterIndexNe ((c + i : Nat) : Int) xs c = xs.eraseIdx i := by
  intro xs
  induction xs with
  | nil => intro i c h; simp at h
  | cons x rest ih =>
    intro i c h
    cases i with
    | zero =>
      rw [filterIndexNe, if_neg (by push_cast; omega),
        filterIndexNe_keep _ rest (c + 1) (by push_cast; omega)]
      rfl
    | succ j =>
      rw [filterIndexNe, if_pos (by push_cast; omega)]
      rw [show c + (j + 1) = (c + 1) + j by omega]
      rw [ih j (c + 1) (by simpa using Nat.lt_of_succ_lt_succ h)]
      rfl

theorem filterIndexNe_length_le {α : Type} (index : Int) :
    ∀ (xs : List α) (c : Nat), (filterIndexNe index xs c).length ≤ xs.length := by
  intro xs
  induction xs with
  | nil => intro c; exact Nat.le_refl _
  | cons x rest ih =>
    intro c
    rw [filterIndexNe]
    by_cases h : ((c : Int) ≠ index)
    · rw [if_pos h]
      simpa using Nat.succ_le_succ (ih (c + 1))
    · rw [if_neg h]
      exact Nat.le_trans (ih (c + 1)) (by simp)

theorem filterIndexNe_length_ge {α : Type} (index : Int) :
    ∀ (xs : List α) (c : Nat), xs.length - 1 ≤ (filterIndexNe index xs c).length := by
  intro xs
  induction xs with
  | nil => intro c; simp [filterIndexNe]
  | cons x rest ih =>
    intro c
    rw [filterIndexNe]
    by_cases h : ((c : Int) ≠ index)
    · rw [if_pos h]
      have := ih (c + 1)
      simp only [List.length_cons]
      omega
    · rw [if_neg h]
      rw [filterIndexNe_keep index rest (c + 1) (by push_cast at h ⊢; omega)]
      simp

/-- Any sequence of `addAuthor`/`removeAuthor` calls keeps the author count
inside `[1, 6]`. -/
theorem runRosterOps_length_invariant :
    ∀ (ops : List RosterOp) (d : FormData),
      1 ≤ d.authors.length → d.authors.length ≤ 6 →
      1 ≤ (runRosterOps d ops).authors.length ∧ (runRosterOps d ops).authors.length ≤ 6 := by
  intro ops
  induction ops with
  | nil => intro d h1 h6; exact ⟨h1, h6⟩
  | cons op rest ih =>
    intro d h1 h6
    have hstep : 1 ≤ (applyRosterOp d op).authors.length ∧
        (applyRosterOp d op).authors.length ≤ 6 := by
      cases op with
      | add =>
        rw [applyRosterOp, addAuthor]
        by_cases h : d.authors.length < 6
        · rw [if_pos h]
          simp only [List.length_append, List.length_cons, List.length_nil]
          omega
        · rw [if_neg h]
          exact ⟨h1, h6⟩
      | remove i =>
        rw [applyRosterOp, removeAuthor]
        by_cases h : 1 < d.authors.length
        · rw [if_pos h]
          have hle := filterIndexNe_length_le i d.authors 0
          have hge := filterIndexNe_length_ge i d.authors 0
          dsimp only
          exact ⟨by omega, by omega⟩
        · rw [if_neg h]
          exact ⟨h1, h6⟩
    exact ih (applyRosterOp d op) hstep.1 hstep.2

/-- C2: `addAuthor` is a no-op when the roster already has 6 authors, and
otherwise appends one author with all fields empty; from the default
document the author count never exceeds 6 under any call sequence. -/
theorem addAuthor_cap_spec :
    (∀ d : FormData, d.authors.length = 6 → addAuthor d = d) ∧
    (∀ d : FormData, d.authors.length < 6 →
      addAuthor d = { d with authors := d.authors ++ [emptyAuthor] }) ∧
    (∀ ops : List RosterOp, (runRosterOps initialFormData ops).authors.length ≤ 6) := by
  refine ⟨?_, ?_, ?_⟩
  · intro d h
    rw [addAuthor, if_neg (by omega)]
  · intro d h
    rw [addAuthor, if_pos h]
  · intro ops
    exact (runRosterOps_length_invariant ops initialFormData (by decide) (by decide)).2

/-- Witness for C2 on the default document. -/
theorem addAuthor_cap_spec_witness :
    addAuthor initialFormData =
      { initialFormData with authors := initialFormData.authors ++ [emptyAuthor] } :=
  addAuthor_cap_spec.2.1 initialFormData (by decide)

/-- C3: `removeAuthor` is a no-op when the roster has exactly one author, and
otherwise removes exactly the author at the given index (order preserved);
from the default document the author count never falls below 1. -/
theorem removeAuthor_floor_spec :
    (∀ (d : FormData) (i : Int), d.authors.length = 1 → removeAuthor d i = d) ∧
    (∀ (d : FormData) (i : Nat), 1 < d.authors.length → i < d.authors.length →
      removeAuthor d (i : Int) = { d with authors := d.authors.eraseIdx i }) ∧
    (∀ ops : List RosterOp, 1 ≤ (runRosterOps initialFormData ops).authors.length) := by
  refine ⟨?_, ?_, ?_⟩
  · intro d i h
    rw [removeAuthor, if_neg (by omega)]
  · intro d i h1 h2
    rw [removeAuthor, if_pos h1]
    have herase := filterIndexNe_eraseIdx d.authors i 0 h2
    simp only [Nat.zero_add] at herase
    rw [herase]
  · intro ops
    exact (runRosterOps_length_invariant ops initialFormData (by decide) (by decide)).1

/-- Witness for C3 on a two-author roster. -/
theorem removeAuthor_floor_spec_witness :
    removeAuthor { initialFormData with authors := [emptyAuthor, emptyAuthor] } ((0 : Nat) : Int) =
      { { initialFormData with authors := [emptyAuthor, emptyAuthor] } with
        authors := ([emptyAuthor, emptyAuthor] : List Author).eraseIdx 0 } :=
  removeAuthor_floor_spec.2.1 { initialFormData with authors := [emptyAuthor, emptyAuthor] } 0
    (by decide) (by decide)

/-! ## Indexed mutations (C9) -/

/-- C9: an indexed mutation with an invalid index fails with
`IndexOutOfRange` (the source throws before updating the state) and leaves
the document unchanged; with a valid index it replaces exactly the
addressed field. -/
theorem indexedMutation_spec :
    (∀ (d : FormData) (i : Int) (f : AuthorField) (v : String),
      (¬ (0 ≤ i ∧ i.toNat < d.authors.length) →
        handleAuthorChange d i f v = Except.error MutError.indexOutOfRange ∧
        applyAuthorChange d i f v = d) ∧
      (∀ h : 0 ≤ i ∧ i.toNat < d.authors.length,
        handleAuthorChange d i f v =
          Except.ok
            { d with
              authors := d.authors.set i.toNat
                ((d.authors.get ⟨i.toNat, h.2⟩).setField f v) })) ∧
    (∀ (a : Author) (f g : AuthorField) (v : String),
      (a.setField f v).getField g = if g = f then v else a.getField g) ∧
    (∀ (d : FormData) (i : Int) (c : String),
      (¬ (0 ≤ i ∧ i.toNat < d.sections.length) →
        setSectionContent d i c = Except.error MutError.indexOutOfRange ∧
        applySectionContent d i c = d) ∧
      (∀ h : 0 ≤ i ∧ i.toNat < d.sections.length,
        setSectionContent d i c =
          Except.ok
            { d with
              sections := d.sections.set i.toNat
                ((d.sections.get ⟨i.toNat, h.2⟩).withContent c) })) ∧
    (∀ (s : Sec) (c : String),
      (s.withContent c).content = c ∧ (s.withContent c).title = s.title ∧
      (s.withContent c).subsections = s.subsections) := by
  refine ⟨?_, ?_, ?_, ?_⟩
  · intro d i f v
    constructor
    · intro hinv
      constructor
      · rw [handleAuthorChange, dif_neg hinv]
      · rw [applyAuthorChange, handleAuthorChange, dif_neg hinv]
    · intro h
      rw [handleAuthorChange, dif_pos h]
  · intro a f g v
    cases f <;> cases g <;> rfl
  · intro d i c
    constructor
    · intro hinv
      constructor
      · rw [setSectionContent, dif_neg hinv]
      · rw [applySectionContent, setSectionContent, dif_neg hinv]
    · intro h
      rw [setSectionContent, dif_pos h]
  · intro s c
    cases s
    exact ⟨rfl, rfl, rfl⟩

/-- Witness for C9: index 5 is invalid on the single-author default
document. -/
theorem indexedMutation_spec_witness :
    handleAuthorChange initialFormData 5 AuthorField.firstName "x" =
      Except.error MutError.indexOutOfRange ∧
    applyAuthorChange initialFormData 5 AuthorField.firstName "x" = initialFormData :=
  (indexedMutation_spec.1 initialFormData 5 AuthorField.firstName "x").1 (by decide)

/-! ## Submit / download protocol (C6, C7) -/

/-- C6: a non-2xx response is classified `ServiceRejected`, a transport
failure `TransportFailure`; in both cases no artifactURL is produced and
the stored handle is not replaced. -/
theorem submit_failure_spec :
    ∀ (prev : Option Blob) (o : FetchOutcome),
      (∀ b : Blob, o = FetchOutcome.response false b →
        submitError o = some GenerationError.serviceRejected ∧
        (handleSubmit prev o).produced = none ∧ (handleSubmit prev o).pdfUrl = prev) ∧
      (o = FetchOutcome.networkError →
        submitError o = some GenerationError.transportFailure ∧
        (handleSubmit prev o).produced = none ∧ (handleSubmit prev o).pdfUrl = prev) := by
  intro prev o
  constructor
  · rintro b rfl
    exact ⟨rfl, rfl, rfl⟩
  · rintro rfl
    exact ⟨rfl, rfl, rfl⟩

/-- Witness for C6: a rejected render with a previously stored handle. -/
theorem submit_failure_spec_witness :
    submitError (FetchOutcome.response false "bad") = some GenerationError.serviceRejected ∧
    (handleSubmit (some "old") (FetchOutcome.response false "bad")).produced = none ∧
    (handleSubmit (some "old") (FetchOutcome.response false "bad")).pdfUrl = some "old" :=
  (submit_failure_spec (some "old") (FetchOutcome.response false "bad")).1 "bad" rfl

/-- C7 counterexample: after one successful submit, two downloads of the
same handle both succeed, so a download is not limited to once per handle. -/
theorem download_once_counterexample :
    (runSession [SessionOp.submit (FetchOutcome.response true "pdf"), SessionOp.download,
      SessionOp.download]).2.length = 2 ∧
    successfulSubmits [SessionOp.submit (FetchOutcome.response true "pdf"), SessionOp.download,
      SessionOp.download] = 1 ∧
    ¬ ((runSession [SessionOp.submit (FetchOutcome.response true "pdf"), SessionOp.download,
      SessionOp.download]).2.length ≤
        successfulSubmits [SessionOp.submit (FetchOutcome.response true "pdf"),
          SessionOp.download, SessionOp.download]) := by
  decide

theorem runSession_no_success :
    ∀ (ops : List SessionOp) (evs : List DownloadEvent),
      successfulSubmits ops = 0 → ops.foldl stepSession (none, evs) = (none, evs) := by
  intro ops
  induction ops with
  | nil => intro evs _; rfl
  | cons op rest ih =>
    intro evs h
    cases op with
    | submit o =>
      cases o with
      | response ok body =>
        cases ok with
        | false =>
          have hrest : successfulSubmits rest = 0 := by
            simpa [successfulSubmits, List.countP_cons] using h
          exact ih evs hrest
        | true =>
          exfalso
          simp [successfulSubmits, List.countP_cons] at h
      | networkError =>
        have hrest : successfulSubmits rest = 0 := by
          simpa [successfulSubmits, List.countP_cons] using h
        exact ih evs hrest
    | download =>
      have hrest : successfulSubmits rest = 0 := by
        simpa [successfulSubmits, List.countP_cons] using h
      exact ih evs hrest

/-- C7 (amended): download fails (`NoArtifact`) whenever no successful
submit has yet produced a handle; once a handle is stored, every download of
it succeeds with file `ieee_conference_paper.pdf` and does not consume the
handle, so a handle may be downloaded any number of times. -/
theorem download_spec_amended :
    (downloadPdf none = none ∧ downloadResult none = Except.error DownloadError.noArtifact) ∧
    (∀ (u : Blob) (evs : List DownloadEvent),
      downloadPdf (some u) = some { url := u, filename := "ieee_conference_paper.pdf" } ∧
      stepSession (some u, evs) SessionOp.download =
        (some u, evs ++ [{ url := u, filename := "ieee_conference_paper.pdf" }])) ∧
    (∀ ops : List SessionOp, successfulSubmits ops = 0 →
      (runSession ops).1 = none ∧ (runSession ops).2 = []) := by
  refine ⟨⟨rfl, rfl⟩, ?_, ?_⟩
  · intro u evs
    exact ⟨rfl, rfl⟩
  · intro ops h
    have hrun : runSession ops = (none, []) := runSession_no_success ops [] h
    exact ⟨by rw [hrun], by rw [hrun]⟩

/-- Witness for C7 (amended): a download before any submit delivers
nothing. -/
theorem download_spec_amended_witness :
    (runSession [SessionOp.download]).1 = none ∧ (runSession [SessionOp.download]).2 = [] :=
  download_spec_amended.2.2 [SessionOp.download] (by decide)

/-! ## Request serialization (C5) -/

/-- C5 counterexample: the serialized top-level field names are not exactly
those of §3 — the presentation flag is serialized under the source's key
`dropCap`, not `dropCapEnabled`. -/
theorem serializedKeys_counterexample :
    (FormData.toJson initialFormData).topKeys ≠
      ["title", "paperNotice", "funding", "dropCapEnabled", "authors", "abstract",
       "keywords", "sections", "references"] ∧
    "dropCapEnabled" ∉ (FormData.toJson initialFormData).topKeys ∧
    "dropCap" ∈ (FormData.toJson initialFormData).topKeys := by
  decide

/-- C5 (amended): submit serializes the document verbatim as a flat JSON
object with field names `title, paperNotice, funding, dropCap, authors,
abstract, keywords, sections, references` (authors and sections as arrays
of objects), sent as the body of a POST to `/api/generate-pdf` with content
type `application/json`. -/
theorem serializeRequest_amended :
    ∀ d : FormData,
      (generateRequest d).url = "/api/generate-pdf" ∧
      (generateRequest d).method = "POST" ∧
      (generateRequest d).contentType = "application/json" ∧
      (generateRequest d).body = FormData.toJson d ∧
      (FormData.toJson d).topKeys =
        ["title", "paperNotice", "funding", "dropCap", "authors", "abstract",
         "keywords", "sections", "references"] ∧
      FormData.toJson d =
        Json.obj [("title", Json.str d.title), ("paperNotice", Json.str d.paperNotice),
          ("funding", Json.str d.funding), ("dropCap", Json.bool d.dropCap),
          ("authors", Json.arr (d.authors.map Author.toJson)),
          ("abstract", Json.str d.abstract), ("keywords", Json.str d.keywords),
          ("sections", Json.arr (secListToJson d.sections)),
          ("references", Json.str d.references)] := by
  intro d
  exact ⟨rfl, rfl, rfl, rfl, rfl, rfl⟩

/-! ## Validation of the default document (C8) -/

/-- C8: on the default document the (spec-modelled) validator returns a
non-empty ordered list with one violation for each required-but-empty field
(title, abstract, keywords, and every required field of the single default
author), and a submission attempted while the list is non-empty fails with
`InvalidDocument` carrying the list. -/
theorem validateInitial_spec :
    validateForSubmission initialFormData =
      [Violation.emptyField "title", Violation.emptyField "abstract",
       Violation.emptyField "keywords",
       Violation.emptyAuthorField 0 "firstName", Violation.emptyAuthorField 0 "lastName",
       Violation.emptyAuthorField 0 "department", Violation.emptyAuthorField 0 "organization",
       Violation.emptyAuthorField 0 "cityCountry", Violation.emptyAuthorField 0 "email"] ∧
    validateForSubmission initialFormData ≠ [] ∧
    (∀ d : FormData, validateForSubmission d ≠ [] →
      attemptSubmission d =
        Except.error (SubmissionError.invalidDocument (validateForSubmission d))) ∧
    attemptSubmission initialFormData =
      Except.error (SubmissionError.invalidDocument (validateForSubmission initialFormData)) := by
  refine ⟨by decide, by decide, ?_, ?_⟩
  · intro d h
    rw [attemptSubmission, if_neg h]
  · rw [attemptSubmission, if_neg (by decide)]

/-- Witness for C8: the invalid-document gate fires on the default
document. -/
theorem validateInitial_spec_witness :
    attemptSubmission initialFormData =
      Except.error (SubmissionError.invalidDocument (validateForSubmission initialFormData)) :=
  validateInitial_spec.2.2.1 initialFormData (by decide)

end IEEEFormatter
